import Mathlib

/-!
Shallow embedding of `scripts/apply_plan_changes.py` (repository AI1).

The script reads a JSON change-set (an object whose key `plans` holds an
array), and for each plan
appends one `<th>` to the first `<thead><tr>` and one `<td>` to every
`<tbody><tr>` of each target HTML document, then writes the document back.

Modelling conventions:
* HTML markup is modelled by the inductive `HNode` (element with tag,
  attribute list and children, or text node).  A table row is its list of
  cell nodes; a document keeps just the parts the script touches: the list
  of `<tr>`s of the first `<thead>` (`none` when there is no `<thead>`) and
  the list of `<tr>`s of the first `<tbody>` (`none` when there is no
  `<tbody>`).
* Python's built-in `hash` on strings is salted per process
  (`PYTHONHASHSEED`), so it is modelled as an explicit parameter
  `pyhash : String → Int` standing for the hash function of the executing
  process; within one run it is a fixed function.
* JSON values are the inductive `Json`; `json.loads` keeps the last
  duplicate key, so objects are modelled with unique keys (association list,
  first match).
* Fallible operations (missing file, JSON parse error, Python exceptions
  such as `AttributeError` on `.get` of a non-dict) are modelled with
  `Option` / explicit outcome constructors.
-/

namespace PlanAppender

/-- An HTML node: an element with a tag name, an ordered attribute list and
children, or a text node. -/
inductive HNode where
  | elem (tag : String) (attrs : List (String × String)) (children : List HNode)
  | text (s : String)
deriving Repr

mutual

/-- Structural equality test for `HNode`. -/
def hnodeBeq : HNode → HNode → Bool
  | HNode.text s1, HNode.text s2 => s1 == s2
  | HNode.elem t1 a1 c1, HNode.elem t2 a2 c2 =>
    t1 == t2 && a1 == a2 && hnodeListBeq c1 c2
  | _, _ => false

/-- Structural equality test for lists of `HNode`. -/
def hnodeListBeq : List HNode → List HNode → Bool
  | [], [] => true
  | x :: xs, y :: ys => hnodeBeq x y && hnodeListBeq xs ys
  | _, _ => false

end

mutual

theorem hnodeBeq_iff : ∀ a b : HNode, hnodeBeq a b = true ↔ a = b
  | HNode.text _, HNode.text _ => by simp [hnodeBeq]
  | HNode.text _, HNode.elem _ _ _ => by simp [hnodeBeq]
  | HNode.elem _ _ _, HNode.text _ => by simp [hnodeBeq]
  | HNode.elem t1 a1 c1, HNode.elem t2 a2 c2 => by
    simp [hnodeBeq, hnodeListBeq_iff c1 c2, HNode.elem.injEq]
    tauto

theorem hnodeListBeq_iff : ∀ xs ys : List HNode, hnodeListBeq xs ys = true ↔ xs = ys
  | [], [] => by simp [hnodeListBeq]
  | [], _ :: _ => by simp [hnodeListBeq]
  | _ :: _, [] => by simp [hnodeListBeq]
  | x :: xs, y :: ys => by
    simp [hnodeListBeq, hnodeBeq_iff x y, hnodeListBeq_iff xs ys]

end

instance : DecidableEq HNode :=
  fun a b => decidable_of_iff (hnodeBeq a b = true) (hnodeBeq_iff a b)

/-- `n.has_attr(k)` of BeautifulSoup: the node is an element and carries the
attribute `k`. -/
def hasAttr (n : HNode) (k : String) : Bool :=
  match n with
  | HNode.elem _ attrs _ => attrs.any (fun p => p.1 == k)
  | HNode.text _ => false

mutual

/-- The first `td` element in document (preorder) order within one node. -/
def firstTdOfNode : HNode → Option HNode
  | HNode.text _ => none
  | HNode.elem tag attrs children =>
    if tag == "td" then some (HNode.elem tag attrs children)
    else firstTdOfList children

/-- The first `td` element in document (preorder) order within a node list. -/
def firstTdOfList : List HNode → Option HNode
  | [] => none
  | n :: rest =>
    match firstTdOfNode n with
    | some t => some t
    | none => firstTdOfList rest

end

/-- `tr.find("td")` over the children of a row: the first `td` element in
document (preorder) order among the row's cells and their descendants. -/
def firstTd (row : List HNode) : Option HNode := firstTdOfList row

/-- The parts of a target document the script reads and mutates: the rows of
the first `<thead>` (`none` if no `<thead>` exists) and the rows of the first
`<tbody>` (`none` if no `<tbody>` exists).  Each row is its list of cells. -/
structure Doc where
  headRows : Option (List (List HNode))
  bodyRows : Option (List (List HNode))
deriving Repr, DecidableEq

/-- Python `str` on an integer, as used in `str(monthly)`. -/
def intStr (n : Int) : String := toString n

/-- Insert `,` after every third character, operating on the reversed digit
list; models the thousands grouping of the Python comma format spec. -/
def group3 : List Char → List Char
  | a :: b :: c :: d :: rest => a :: b :: c :: ',' :: group3 (d :: rest)
  | l => l

/-- Decimal digits of a natural number with thousands separators
(`1999 ↦ "1,999"`). -/
def commaNat (m : Nat) : String :=
  String.mk ((group3 (Nat.toDigits 10 m).reverse).reverse)

/-- Python comma-formatting of an integer: thousands-grouped decimal digits, with a
leading minus sign for negative values. -/
def pyCommaFormat (n : Int) : String :=
  if n < 0 then "-" ++ commaNat n.natAbs else commaNat n.natAbs

/-- The literal characters that line 52 of the source file puts before the
formatted price.  The file's bytes there are `c3 a2 e2 80 9a c2 b9`, i.e. the
three characters U+00E2 U+201A U+00B9 ("â‚¹", a double-encoded rupee sign),
not the single rupee sign U+20B9. -/
def rupeeLiteral : String := "â‚¹"

/-- `id_stamp` of `make_header_th` (line 47):
the literal `price` followed by `abs(hash(name + str(monthly))) % (10**9)`,
with the process's
string-hash function made explicit. -/
def idStamp (pyhash : String → Int) (name : String) (monthly : Int) : String :=
  "price" ++ toString ((pyhash (name ++ intStr monthly)).natAbs % 10 ^ 9)

/-- `make_header_th` (lines 38-64): the generated `<th>` with title, price
span (id, data-monthly, price text), unit span and button. -/
def makeHeaderTh (pyhash : String → Int) (name : String) (monthly : Int) : HNode :=
  HNode.elem "th" [("class", "p-6 md:p-8 w-1/4 align-bottom")]
    [ HNode.elem "h3" [("class", "text-lg font-bold")] [HNode.text name]
    , HNode.elem "div" [("class", "flex items-baseline gap-1 mb-4")]
        [ HNode.elem "span"
            [ ("id", idStamp pyhash name monthly)
            , ("class", "text-3xl font-black")
            , ("data-monthly", intStr monthly) ]
            [HNode.text (rupeeLiteral ++ pyCommaFormat monthly)]
        , HNode.elem "span" [("class", "text-sm text-[#4c739a]")] [HNode.text "/mo"] ]
    , HNode.elem "button" [("class", "w-full py-2.5 rounded-lg border text-sm")]
        [HNode.text "Choose Plan"] ]

/-- The empty filler cell appended to separator rows (lines 93-96). -/
def fillerTd : HNode :=
  HNode.elem "td" [("class", "px-6 py-3")] [HNode.text ""]

/-- The placeholder cell appended to ordinary rows (lines 98-101). -/
def placeholderTd : HNode :=
  HNode.elem "td" [("class", "px-6 py-4 text-center")] [HNode.text "-"]

/-- Lines 89-101: the per-row body update.  If the row's first `td`
descendant exists and has a `colspan` attribute, append the empty filler
cell, otherwise append the placeholder cell. -/
def appendBodyCell (row : List HNode) : List HNode :=
  match firstTd row with
  | some t =>
    if hasAttr t "colspan" then row ++ [fillerTd] else row ++ [placeholderTd]
  | none => row ++ [placeholderTd]

/-- `append_plan_to_file` (lines 67-105) on the in-memory document: skip if
there is no `<thead>` or no row in it; otherwise append the generated `<th>`
to the first head row; if a `<tbody>` exists, also append one cell to each of
its rows (the missing-`<tbody>` case keeps the head-row change). -/
def applyPlan (pyhash : String → Int) (name : String) (monthly : Int) (d : Doc) : Doc :=
  match d.headRows with
  | none => d
  | some headTrs =>
    match headTrs with
    | [] => d
    | r :: rest =>
      let newHead := (r ++ [makeHeaderTh pyhash name monthly]) :: rest
      match d.bodyRows with
      | none => { headRows := some newHead, bodyRows := none }
      | some rows => { headRows := some newHead, bodyRows := some (rows.map appendBodyCell) }

/-- A JSON value (numbers restricted to integers, the only kind the script's
claims exercise). -/
inductive Json where
  | null
  | bool (b : Bool)
  | num (n : Int)
  | str (s : String)
  | arr (elems : List Json)
  | obj (fields : List (String × Json))
deriving Repr

mutual

/-- Structural equality test for `Json`. -/
def jsonBeq : Json → Json → Bool
  | Json.null, Json.null => true
  | Json.bool b1, Json.bool b2 => b1 == b2
  | Json.num n1, Json.num n2 => n1 == n2
  | Json.str s1, Json.str s2 => s1 == s2
  | Json.arr l1, Json.arr l2 => jsonListBeq l1 l2
  | Json.obj f1, Json.obj f2 => jsonFieldsBeq f1 f2
  | _, _ => false

/-- Structural equality test for lists of `Json`. -/
def jsonListBeq : List Json → List Json → Bool
  | [], [] => true
  | x :: xs, y :: ys => jsonBeq x y && jsonListBeq xs ys
  | _, _ => false

/-- Structural equality test for JSON object field lists. -/
def jsonFieldsBeq : List (String × Json) → List (String × Json) → Bool
  | [], [] => true
  | (k1, v1) :: xs, (k2, v2) :: ys => k1 == k2 && jsonBeq v1 v2 && jsonFieldsBeq xs ys
  | _, _ => false

end

mutual

theorem jsonBeq_iff : ∀ a b : Json, jsonBeq a b = true ↔ a = b
  | Json.null, b => by cases b <;> simp [jsonBeq]
  | Json.bool _, b => by cases b <;> simp [jsonBeq]
  | Json.num _, b => by cases b <;> simp [jsonBeq]
  | Json.str _, b => by cases b <;> simp [jsonBeq]
  | Json.arr l1, b => by
    cases b <;> simp [jsonBeq]
    exact jsonListBeq_iff l1 _
  | Json.obj f1, b => by
    cases b <;> simp [jsonBeq]
    exact jsonFieldsBeq_iff f1 _

theorem jsonListBeq_iff : ∀ xs ys : List Json, jsonListBeq xs ys = true ↔ xs = ys
  | [], [] => by simp [jsonListBeq]
  | [], _ :: _ => by simp [jsonListBeq]
  | _ :: _, [] => by simp [jsonListBeq]
  | x :: xs, y :: ys => by
    simp [jsonListBeq, jsonBeq_iff x y, jsonListBeq_iff xs ys]

theorem jsonFieldsBeq_iff :
    ∀ xs ys : List (String × Json), jsonFieldsBeq xs ys = true ↔ xs = ys
  | [], [] => by simp [jsonFieldsBeq]
  | [], _ :: _ => by simp [jsonFieldsBeq]
  | _ :: _, [] => by simp [jsonFieldsBeq]
  | (k1, v1) :: xs, (k2, v2) :: ys => by
    simp [jsonFieldsBeq, jsonBeq_iff v1 v2, jsonFieldsBeq_iff xs ys, Prod.ext_iff]

end

instance : DecidableEq Json :=
  fun a b => decidable_of_iff (jsonBeq a b = true) (jsonBeq_iff a b)

/-- Python truthiness of a JSON value: `None`, `False`, `0`, the empty string, the
empty array and the empty object are falsy, everything else truthy. -/
def truthy : Json → Bool
  | Json.null => false
  | Json.bool b => b
  | Json.num n => n != 0
  | Json.str s => s != ""
  | Json.arr elems => !elems.isEmpty
  | Json.obj fields => !fields.isEmpty

/-- Field lookup in a JSON object (keys are unique, see module comment). -/
def lookupField (fields : List (String × Json)) (k : String) : Option Json :=
  match fields with
  | [] => none
  | (k2, v) :: rest => if k2 == k then some v else lookupField rest k

/-- Python `dict.get(k, default)`. -/
def dictGet (fields : List (String × Json)) (k : String) (default : Json) : Json :=
  (lookupField fields k).getD default

/-- Python `dict.get(k)` (default `None`). -/
def pyGet (fields : List (String × Json)) (k : String) : Json :=
  dictGet fields k Json.null

/-- Outcome of `load_changes` (lines 30-35) together with the failure modes
of the surrounding run. -/
inductive LoadOutcome where
  | exitOne
  | parseFailure
  | typeFailure
  | ok (plans : Json)
deriving Repr, DecidableEq

/-- `load_changes` (lines 30-35).  The input models the file system: `none`
is a missing file (`sys.exit(1)`); `some none` is a file whose contents do
not parse as JSON (`json.loads` raises, uncaught); `some (some j)` is a file
parsing to `j`.  `data.get("plans", default empty array)` requires `data` to be a dict, else
Python raises `AttributeError` (uncaught). -/
def loadChanges : Option (Option Json) → LoadOutcome
  | none => LoadOutcome.exitOne
  | some none => LoadOutcome.parseFailure
  | some (some (Json.obj fields)) => LoadOutcome.ok (dictGet fields "plans" (Json.arr []))
  | some (some _) => LoadOutcome.typeFailure

/-- Line 115: `plan.get("name") or the string New Plan`. -/
def nameOf (fields : List (String × Json)) : Json :=
  let v := pyGet fields "name"
  if truthy v then v else Json.str "New Plan"

/-- The argument of `int(...)` on line 116:
`plan.get("monthly") or plan.get("monthly_price") or 0`. -/
def monthlyJson (fields : List (String × Json)) : Json :=
  let v := pyGet fields "monthly"
  if truthy v then v
  else
    let w := pyGet fields "monthly_price"
    if truthy w then w else Json.num 0

/-- Python `int(...)` on a JSON value: identity on integers, `True`/`False`
to `1`/`0`, decimal strings parsed, anything else raises (`none`).  (The
claims only ever reach the integer case.) -/
def pyInt : Json → Option Int
  | Json.num n => some n
  | Json.bool b => some (if b then 1 else 0)
  | Json.str s => s.toInt?
  | _ => none

/-- Line 116: the monthly price extracted from a plan record. -/
def monthlyOf (fields : List (String × Json)) : Option Int :=
  pyInt (monthlyJson fields)

/-- Name and monthly price of one plan record (lines 115-116): the record
must be a dict, the chosen name a string (it is concatenated with a string
inside `make_header_th`) and the monthly value convertible by `int`;
otherwise the run raises. -/
def planParams (p : Json) : Option (String × Int) :=
  match p with
  | Json.obj fields =>
    match nameOf fields with
    | Json.str s => (monthlyOf fields).map (fun m => (s, m))
    | _ => none
  | _ => none

/-- The main loop's net effect on one existing target document: `main`
iterates plans outer and targets inner, and the targets are independent, so
one document receives the plans as a left fold of `applyPlan`. -/
def processDoc (pyhash : String → Int) (plans : List (String × Int)) (d : Doc) : Doc :=
  plans.foldl (fun acc p => applyPlan pyhash p.1 p.2 acc) d

/-- Lines 114-121: apply each plan record in order to every target that
exists on disk (`none` targets are skipped); a record whose extraction
raises aborts the run (`none`). -/
def stepPlans (pyhash : String → Int) :
    List Json → List (Option Doc) → Option (List (Option Doc))
  | [], targets => some targets
  | p :: rest, targets =>
    match planParams p with
    | none => none
    | some nm =>
      stepPlans pyhash rest (targets.map (fun t => t.map (applyPlan pyhash nm.1 nm.2)))

/-- `main` (lines 108-122) over the modelled file system and target list:
result `none` is an aborted run (uncaught exception); `some (c, ts)` is exit
code `c` with final target states `ts`. -/
def mainRun (pyhash : String → Int) (fs : Option (Option Json))
    (targets : List (Option Doc)) : Option (Nat × List (Option Doc)) :=
  match loadChanges fs with
  | LoadOutcome.exitOne => some (1, targets)
  | LoadOutcome.parseFailure => none
  | LoadOutcome.typeFailure => none
  | LoadOutcome.ok plansJson =>
    if truthy plansJson then
      match plansJson with
      | Json.arr plans => (stepPlans pyhash plans targets).map (fun ts => (0, ts))
      | _ => none
    else some (0, targets)

/-- Number of cells in the head row the script targets (first row of the
first `<thead>`), zero when that row does not exist. -/
def headCellCount (d : Doc) : Nat :=
  match d.headRows with
  | some (r :: _) => r.length
  | _ => 0

/-- The cell counts of the body rows, in order (empty when no `<tbody>`). -/
def bodyCellCounts (d : Doc) : List Nat :=
  match d.bodyRows with
  | some rows => rows.map List.length
  | none => []

/-- The documented column-count invariant: if the document has a head row
and a body, every body row has as many cells as the head row. -/
def uniformCounts (d : Doc) : Bool :=
  match d.headRows, d.bodyRows with
  | some (r :: _), some rows => rows.all (fun row => row.length == r.length)
  | _, _ => true

/-- The text directly inside a cell, when the cell is an element wrapping a
single text node. -/
def cellText : HNode → Option String
  | HNode.elem _ _ [HNode.text s] => some s
  | _ => none

/-- The price text of a generated header cell: the text of the first span of
the cell's second child (the price `<div>`). -/
def priceTextOfTh : HNode → Option String
  | HNode.elem _ _ (_ :: HNode.elem _ _ (HNode.elem _ _ [HNode.text s] :: _) :: _) =>
    some s
  | _ => none

theorem appendBodyCell_length (row : List HNode) :
    (appendBodyCell row).length = row.length + 1 := by
  unfold appendBodyCell
  cases firstTd row with
  | none => simp
  | some t =>
    by_cases h : hasAttr t "colspan" <;> simp [h]

theorem applyPlan_eq (ph : String → Int) (n : String) (m : Int)
    (r : List HNode) (hrs : List (List HNode)) (b : Option (List (List HNode))) :
    applyPlan ph n m ⟨some (r :: hrs), b⟩
      = ⟨some ((r ++ [makeHeaderTh ph n m]) :: hrs), b.map (List.map appendBodyCell)⟩ := by
  cases b <;> rfl

theorem processDoc_nil (ph : String → Int) (d : Doc) : processDoc ph [] d = d := rfl

theorem processDoc_cons (ph : String → Int) (p : String × Int)
    (ps : List (String × Int)) (d : Doc) :
    processDoc ph (p :: ps) d = processDoc ph ps (applyPlan ph p.1 p.2 d) := rfl

/-- A sample target document: a head row of two cells and one body row of
two cells. -/
def sampleDoc : Doc := ⟨some [[fillerTd, fillerTd]], some [[fillerTd, placeholderTd]]⟩

/-- A sample plan record whose `name` is present but empty and whose
`monthly` is present but `0`. -/
def samplePlanFields : List (String × Json) :=
  [("name", Json.str ""), ("monthly", Json.num 0), ("monthly_price", Json.num 500)]

/-- C1: after the orchestrator processes a document whose first head row has
`H` cells and whose body rows each have `C` cells with a change-set of `N`
plans, the head row has `H + N` cells and every body row has `C + N` cells
(one `th` appended to the head row and one `td` to every body row per
plan). -/
theorem processDoc_column_counts (ph : String → Int) (plans : List (String × Int))
    (r : List HNode) (hrs rows : List (List HNode)) (H C : Nat)
    (hH : r.length = H) (hC : ∀ row ∈ rows, row.length = C) :
    ∃ r2 rows2,
      processDoc ph plans ⟨some (r :: hrs), some rows⟩ = ⟨some (r2 :: hrs), some rows2⟩
        ∧ r2.length = H + plans.length
        ∧ ∀ row ∈ rows2, row.length = C + plans.length := by
  induction plans generalizing r rows H C with
  | nil =>
    exact ⟨r, rows, rfl, by simpa using hH, by simpa using hC⟩
  | cons p ps ih =>
    rw [processDoc_cons, applyPlan_eq]
    simp only [Option.map_some']
    have hH2 : (r ++ [makeHeaderTh ph p.1 p.2]).length = H + 1 := by simp [hH]
    have hC2 : ∀ row ∈ rows.map appendBodyCell, row.length = C + 1 := by
      intro row hrow
      obtain ⟨row0, h0, rfl⟩ := List.mem_map.mp hrow
      rw [appendBodyCell_length, hC row0 h0]
    obtain ⟨r2, rows2, heq, hlen, hall⟩ := ih _ _ _ _ hH2 hC2
    refine ⟨r2, rows2, heq, ?_, ?_⟩
    · simp only [List.length_cons]
      omega
    · intro row hrow
      have := hall row hrow
      simp only [List.length_cons]
      omega

/-- C1 witness: two concrete plans applied to a document with a 2-cell head
row and a 1-cell body row give 4 and 3 cells. -/
theorem processDoc_column_counts_witness :
    ∃ r2 rows2,
      processDoc (fun _ => (0 : Int)) [("Basic", 999), ("VIP", 15999)]
          ⟨some [[fillerTd, fillerTd], [placeholderTd]], some [[fillerTd]]⟩
        = ⟨some (r2 :: [[placeholderTd]]), some rows2⟩
        ∧ r2.length = 2 + 2
        ∧ ∀ row ∈ rows2, row.length = 1 + 2 :=
  processDoc_column_counts (fun _ => 0) [("Basic", 999), ("VIP", 15999)]
    [fillerTd, fillerTd] [[placeholderTd]] [[fillerTd]] 2 1 rfl (by decide)

/-- C2: if the head-row cell count equals the cell count of every body row,
that equality still holds after applying any plan (the patcher appends
exactly one cell to the head row and one cell to every body row, regardless
of row kind); the statement quantifies over all documents, including those
with a table head but no table body (`bodyRows = none`), where the invariant
is vacuous before and after. -/
theorem applyPlan_preserves_uniform (ph : String → Int) (n : String) (m : Int)
    (d : Doc) (h : uniformCounts d = true) :
    uniformCounts (applyPlan ph n m d) = true
      ∧ ∀ r hrs, d.headRows = some (r :: hrs) →
          headCellCount (applyPlan ph n m d) = headCellCount d + 1
          ∧ bodyCellCounts (applyPlan ph n m d) = (bodyCellCounts d).map (· + 1) := by
  obtain ⟨hR, bR⟩ := d
  cases hR with
  | none => exact ⟨h, fun r hrs hh => by simp at hh⟩
  | some headTrs =>
    cases headTrs with
    | nil => exact ⟨h, fun r hrs hh => by simp at hh⟩
    | cons r0 hrs0 =>
      rw [applyPlan_eq]
      constructor
      · cases bR with
        | none => rfl
        | some rows =>
          simp only [Option.map_some']
          unfold uniformCounts at h ⊢
          simp only [List.all_eq_true, beq_iff_eq] at h ⊢
          intro row hrow
          obtain ⟨row0, h0, rfl⟩ := List.mem_map.mp hrow
          rw [appendBodyCell_length, h row0 h0]
          simp
      · intro r hrs hh
        constructor
        · simp [headCellCount]
        · cases bR with
          | none => rfl
          | some rows =>
            simp [bodyCellCounts, List.map_map, Function.comp_def, appendBodyCell_length]

/-- C2 witness: the invariant holds after patching a concrete uniform
document, and the cell counts each grew by one. -/
theorem applyPlan_preserves_uniform_witness :
    uniformCounts (applyPlan (fun _ => (0 : Int)) "VIP" 15999 sampleDoc) = true
    ∧ headCellCount (applyPlan (fun _ => (0 : Int)) "VIP" 15999 sampleDoc)
        = headCellCount sampleDoc + 1
    ∧ bodyCellCounts (applyPlan (fun _ => (0 : Int)) "VIP" 15999 sampleDoc)
        = (bodyCellCounts sampleDoc).map (· + 1) :=
  ⟨(applyPlan_preserves_uniform _ _ _ sampleDoc (by decide)).1,
   ((applyPlan_preserves_uniform _ _ _ sampleDoc (by decide)).2 _ _ rfl).1,
   ((applyPlan_preserves_uniform _ _ _ sampleDoc (by decide)).2 _ _ rfl).2⟩

/-- C3: the price text of the generated header cell is the monthly integer
with thousands grouping, but the prefix the code writes is the literal
three-character sequence U+00E2 U+201A U+00B9 (a double-encoded rupee sign,
the bytes actually present on line 52 of the source), not the single rupee
glyph U+20B9 the spec shows: at monthly = 1999 the code yields
"â‚¹1,999" and not "₹1,999". -/
theorem headerPriceText_mojibake (ph : String → Int) (name : String) (monthly : Int) :
    priceTextOfTh (makeHeaderTh ph name monthly)
      = some (rupeeLiteral ++ pyCommaFormat monthly)
    ∧ pyCommaFormat 1999 = "1,999"
    ∧ priceTextOfTh (makeHeaderTh ph "New Plan" 1999) = some "â‚¹1,999"
    ∧ rupeeLiteral ≠ "₹"
    ∧ priceTextOfTh (makeHeaderTh ph "New Plan" 1999) ≠ some "₹1,999" := by
  refine ⟨rfl, rfl, rfl, by decide, ?_⟩
  have h : priceTextOfTh (makeHeaderTh ph "New Plan" 1999) = some "â‚¹1,999" := rfl
  rw [h]
  decide

/-- C3 witness: the generated price text at monthly = 1999 is the
mojibake-prefixed string. -/
theorem headerPriceText_mojibake_witness :
    priceTextOfTh (makeHeaderTh (fun _ => (0 : Int)) "New Plan" 1999)
      = some "â‚¹1,999" :=
  (headerPriceText_mojibake (fun _ => 0) "New Plan" 1999).2.2.1

/-- C4 counterexample: a body row whose first cell is a `th` carrying a
`colspan` attribute receives the placeholder cell, not the empty filler the
claim predicts, because the code inspects only the first `td`
descendant. -/
theorem sep_claim_counterexample :
    hasAttr (HNode.elem "th" [("colspan", "4")] [HNode.text "Features"]) "colspan" = true
    ∧ appendBodyCell [HNode.elem "th" [("colspan", "4")] [HNode.text "Features"]]
        = [HNode.elem "th" [("colspan", "4")] [HNode.text "Features"], placeholderTd]
    ∧ cellText placeholderTd = some "-"
    ∧ placeholderTd ≠ fillerTd := by decide

/-- C4 (amended): a body row whose first `td` descendant carries a `colspan`
attribute gains exactly one filler cell with empty content; every other body
row (no `td` at all, or first `td` without `colspan`) gains the placeholder
cell containing "-". -/
theorem bodyCell_by_firstTd (row : List HNode) :
    (∀ t, firstTd row = some t → hasAttr t "colspan" = true →
        appendBodyCell row = row ++ [fillerTd])
    ∧ (∀ t, firstTd row = some t → hasAttr t "colspan" = false →
        appendBodyCell row = row ++ [placeholderTd])
    ∧ (firstTd row = none → appendBodyCell row = row ++ [placeholderTd])
    ∧ cellText fillerTd = some ""
    ∧ cellText placeholderTd = some "-"
    ∧ fillerTd ≠ placeholderTd := by
  refine ⟨?_, ?_, ?_, rfl, rfl, by decide⟩
  · intro t ht hc; simp [appendBodyCell, ht, hc]
  · intro t ht hc; simp [appendBodyCell, ht, hc]
  · intro ht; simp [appendBodyCell, ht]

/-- C4 witness: the three row kinds at concrete rows. -/
theorem bodyCell_by_firstTd_witness :
    appendBodyCell [HNode.elem "td" [("colspan", "4")] []]
        = [HNode.elem "td" [("colspan", "4")] []] ++ [fillerTd]
    ∧ appendBodyCell [HNode.elem "td" [] []]
        = [HNode.elem "td" [] []] ++ [placeholderTd]
    ∧ appendBodyCell ([] : List HNode) = [] ++ [placeholderTd] :=
  ⟨(bodyCell_by_firstTd _).1 _ rfl rfl,
   (bodyCell_by_firstTd _).2.1 _ rfl rfl,
   (bodyCell_by_firstTd _).2.2.1 rfl⟩

/-- C5: the change-set loader exits with status 1 when the file is missing;
parse failures propagate (the run aborts); on a JSON object it returns the
value under key `plans`, or the empty array when the key is absent; and when
the returned sequence is empty the run reports, exits with status 0, and
changes no target. -/
theorem loadChanges_contract (ph : String → Int) (fields : List (String × Json))
    (targets : List (Option Doc)) :
    mainRun ph none targets = some (1, targets)
    ∧ loadChanges none = LoadOutcome.exitOne
    ∧ loadChanges (some none) = LoadOutcome.parseFailure
    ∧ mainRun ph (some none) targets = none
    ∧ (∀ v, lookupField fields "plans" = some v →
        loadChanges (some (some (Json.obj fields))) = LoadOutcome.ok v)
    ∧ (lookupField fields "plans" = none →
        loadChanges (some (some (Json.obj fields))) = LoadOutcome.ok (Json.arr []))
    ∧ (loadChanges (some (some (Json.obj fields))) = LoadOutcome.ok (Json.arr []) →
        mainRun ph (some (some (Json.obj fields))) targets = some (0, targets)) := by
  refine ⟨rfl, rfl, rfl, rfl, ?_, ?_, ?_⟩
  · intro v hv; simp [loadChanges, dictGet, hv]
  · intro hv; simp [loadChanges, dictGet, hv]
  · intro hl
    simp only [mainRun, hl]
    rfl

/-- C5 witness: a present `plans` key is returned, an absent one yields the
empty array, and an empty change-set exits 0 leaving the target unchanged. -/
theorem loadChanges_contract_witness :
    loadChanges (some (some (Json.obj [("plans", Json.arr [Json.num 3])])))
        = LoadOutcome.ok (Json.arr [Json.num 3])
    ∧ loadChanges (some (some (Json.obj [("other", Json.num 1)])))
        = LoadOutcome.ok (Json.arr [])
    ∧ mainRun (fun _ => (0 : Int)) (some (some (Json.obj [("plans", Json.arr [])])))
        [some sampleDoc] = some (0, [some sampleDoc]) :=
  ⟨(loadChanges_contract (fun _ => 0) _ []).2.2.2.2.1 _ rfl,
   (loadChanges_contract (fun _ => 0) _ []).2.2.2.2.2.1 rfl,
   (loadChanges_contract (fun _ => 0) _ [some sampleDoc]).2.2.2.2.2.2 rfl⟩

/-- C6: applying the patcher twice with the same plan is not idempotent:
the second run appends a further duplicate header cell (the head row ends in
two copies of the generated `th`) and a further cell to every body row,
rather than leaving the once-patched document unchanged. -/
theorem applyPlan_not_idempotent (ph : String → Int) (n : String) (m : Int)
    (d : Doc) (r : List HNode) (hrs : List (List HNode))
    (hhd : d.headRows = some (r :: hrs)) :
    applyPlan ph n m (applyPlan ph n m d) ≠ applyPlan ph n m d
      ∧ (applyPlan ph n m (applyPlan ph n m d)).headRows
          = some ((r ++ [makeHeaderTh ph n m, makeHeaderTh ph n m]) :: hrs)
      ∧ ∀ rows, d.bodyRows = some rows →
          (applyPlan ph n m (applyPlan ph n m d)).bodyRows
            = some ((rows.map appendBodyCell).map appendBodyCell) := by
  obtain ⟨hR, bR⟩ := d
  simp only [Doc.headRows] at hhd
  subst hhd
  rw [applyPlan_eq, applyPlan_eq]
  refine ⟨?_, ?_, ?_⟩
  · intro heq
    simp only [Doc.mk.injEq, Option.some.injEq, List.cons.injEq] at heq
    obtain ⟨⟨hcol, -⟩, -⟩ := heq
    have := congrArg List.length hcol
    simp only [List.length_append, List.length_singleton] at this
    omega
  · simp [List.append_assoc]
  · intro rows hb
    simp only [Doc.bodyRows] at hb
    subst hb
    simp

/-- C6 witness: the double application differs from the single one on a
concrete document. -/
theorem applyPlan_not_idempotent_witness :
    applyPlan (fun _ => (0 : Int)) "New Plan" 1999
        (applyPlan (fun _ => (0 : Int)) "New Plan" 1999 sampleDoc)
      ≠ applyPlan (fun _ => (0 : Int)) "New Plan" 1999 sampleDoc :=
  (applyPlan_not_idempotent (fun _ => 0) "New Plan" 1999 sampleDoc
    [fillerTd, fillerTd] [] rfl).1

/-- C7 counterexample: the generated id is not a function of the plan name
and monthly price alone — it also depends on the process string-hash
function (CPython salts string hashing per process via PYTHONHASHSEED, so
two runs realize different hash functions): two admissible hash functions
give different id strings for the same name and monthly. -/
theorem idStamp_depends_on_process_hash :
    idStamp (fun _ => (0 : Int)) "New Plan" 1999 = "price0"
    ∧ idStamp (fun _ => (1 : Int)) "New Plan" 1999 = "price1"
    ∧ idStamp (fun _ => (0 : Int)) "New Plan" 1999
        ≠ idStamp (fun _ => (1 : Int)) "New Plan" 1999 := by decide

/-- C7 (amended): within one run (a fixed process hash function) the id is a
deterministic function of the concatenation of the name and the decimal
monthly price, and its numeric part is reduced into the bounded range
below 10^9; stability across runs holds only when the runs agree on the
hash of that concatenation. -/
theorem idStamp_deterministic_per_run (pyhash : String → Int)
    (n1 n2 : String) (m1 m2 : Int)
    (h : n1 ++ intStr m1 = n2 ++ intStr m2) :
    idStamp pyhash n1 m1 = idStamp pyhash n2 m2
    ∧ ∃ k : Nat, k < 10 ^ 9 ∧ idStamp pyhash n1 m1 = "price" ++ toString k := by
  unfold idStamp
  rw [h]
  exact ⟨rfl, _, Nat.mod_lt _ (by norm_num), rfl⟩

/-- C7 witness: two plans with the same name-price concatenation collide in
one run, and the id has the bounded numeric form. -/
theorem idStamp_deterministic_per_run_witness :
    idStamp (fun s => (s.length : Int)) "New Plan" 1999
      = idStamp (fun s => (s.length : Int)) "New Plan1" 999
    ∧ ∃ k : Nat, k < 10 ^ 9
        ∧ idStamp (fun s => (s.length : Int)) "New Plan" 1999 = "price" ++ toString k :=
  idStamp_deterministic_per_run _ _ _ _ _ (by decide)

/-- C8 counterexample: a record with `name` present but empty and `monthly`
present but `0` uses "New Plan" and the `monthly_price` fallback `500`, so
the defaults do not apply exactly when the keys are absent — Python
truthiness also triggers them on present falsy values. -/
theorem plan_defaults_counterexample :
    lookupField samplePlanFields "name" = some (Json.str "")
    ∧ nameOf samplePlanFields = Json.str "New Plan"
    ∧ nameOf samplePlanFields ≠ Json.str ""
    ∧ lookupField samplePlanFields "monthly" = some (Json.num 0)
    ∧ monthlyOf samplePlanFields = some 500
    ∧ monthlyOf samplePlanFields ≠ some 0 := by decide

/-- C8 (amended): the name used is the `name` value exactly when that value
is truthy and "New Plan" otherwise (absent or falsy); the monthly value used
is `monthly` when truthy, else `monthly_price` when truthy, else `0`. -/
theorem plan_defaults_truthiness (fields : List (String × Json)) :
    (truthy (pyGet fields "name") = true → nameOf fields = pyGet fields "name")
    ∧ (truthy (pyGet fields "name") = false → nameOf fields = Json.str "New Plan")
    ∧ (lookupField fields "name" = none → nameOf fields = Json.str "New Plan")
    ∧ (truthy (pyGet fields "monthly") = true → monthlyJson fields = pyGet fields "monthly")
    ∧ (truthy (pyGet fields "monthly") = false →
        truthy (pyGet fields "monthly_price") = true →
        monthlyJson fields = pyGet fields "monthly_price")
    ∧ (truthy (pyGet fields "monthly") = false →
        truthy (pyGet fields "monthly_price") = false →
        monthlyJson fields = Json.num 0)
    ∧ (lookupField fields "monthly" = none → lookupField fields "monthly_price" = none →
        monthlyOf fields = some 0) := by
  refine ⟨?_, ?_, ?_, ?_, ?_, ?_, ?_⟩ <;>
    intros <;>
    simp_all [nameOf, monthlyJson, monthlyOf, pyGet, dictGet, pyInt, truthy]

/-- C8 witness: the truthiness characterization applied at the sample
record. -/
theorem plan_defaults_truthiness_witness :
    nameOf samplePlanFields = Json.str "New Plan"
    ∧ monthlyJson samplePlanFields = pyGet samplePlanFields "monthly_price" :=
  ⟨(plan_defaults_truthiness samplePlanFields).2.1 (by decide),
   (plan_defaults_truthiness samplePlanFields).2.2.2.2.1 (by decide) (by decide)⟩

/-- C9 counterexample: a row whose first cell is a `th` is not always
treated as a normal row — when a later `td` carries `colspan` the code
appends the empty filler, not the placeholder. -/
theorem sep_th_first_counterexample :
    appendBodyCell
        [HNode.elem "th" [("colspan", "3")] [HNode.text "Section"],
         HNode.elem "td" [("colspan", "3")] []]
      = [HNode.elem "th" [("colspan", "3")] [HNode.text "Section"],
         HNode.elem "td" [("colspan", "3")] [], fillerTd]
    ∧ appendBodyCell
        [HNode.elem "th" [("colspan", "3")] [HNode.text "Section"],
         HNode.elem "td" [("colspan", "3")] []]
      ≠ [HNode.elem "th" [("colspan", "3")] [HNode.text "Section"],
         HNode.elem "td" [("colspan", "3")] [], placeholderTd] := by decide

/-- C9 (amended): separator detection inspects only the first `td`
descendant of a body row — rows with the same first `td` receive the same
appended cell; a row with no `td` at all, or whose first `td` lacks
`colspan`, receives the placeholder even if its actual first cell (e.g. a
`th`) carries a column-span attribute. -/
theorem bodyCell_inspects_firstTd_only (r1 r2 : List HNode)
    (hsame : firstTd r1 = firstTd r2) :
    (∃ c, appendBodyCell r1 = r1 ++ [c] ∧ appendBodyCell r2 = r2 ++ [c])
    ∧ (firstTd r1 = none → appendBodyCell r1 = r1 ++ [placeholderTd])
    ∧ ∀ t, firstTd r1 = some t → hasAttr t "colspan" = false →
        appendBodyCell r1 = r1 ++ [placeholderTd] := by
  refine ⟨?_, ?_, ?_⟩
  · cases h1 : firstTd r1 with
    | none =>
      have h2 : firstTd r2 = none := by rw [← hsame]; exact h1
      exact ⟨placeholderTd, by simp [appendBodyCell, h1], by simp [appendBodyCell, h2]⟩
    | some t =>
      have h2 : firstTd r2 = some t := by rw [← hsame]; exact h1
      by_cases hc : hasAttr t "colspan" = true
      · exact ⟨fillerTd, by simp [appendBodyCell, h1, hc], by simp [appendBodyCell, h2, hc]⟩
      · exact ⟨placeholderTd, by simp [appendBodyCell, h1, hc], by simp [appendBodyCell, h2, hc]⟩
  · intro h1; simp [appendBodyCell, h1]
  · intro t h1 hc; simp [appendBodyCell, h1, hc]

/-- C9 witness: two rows differing in everything but the first `td`
descendant receive the same appended cell. -/
theorem bodyCell_inspects_firstTd_only_witness :
    ∃ c, appendBodyCell [HNode.elem "td" [("colspan", "2")] []]
            = [HNode.elem "td" [("colspan", "2")] []] ++ [c]
        ∧ appendBodyCell [HNode.elem "th" [] [], HNode.elem "td" [("colspan", "2")] []]
            = [HNode.elem "th" [] [], HNode.elem "td" [("colspan", "2")] []] ++ [c] :=
  (bodyCell_inspects_firstTd_only [HNode.elem "td" [("colspan", "2")] []]
    [HNode.elem "th" [] [], HNode.elem "td" [("colspan", "2")] []] rfl).1

/-- C10: a change-set file whose top-level JSON value is a bare array makes
the loader raise (modelled `typeFailure` for the `AttributeError` of `.get`
on a non-dict) and the run abort, rather than returning the empty sequence
or the array. -/
theorem loadChanges_non_object_aborts (elems : List Json) (ph : String → Int)
    (targets : List (Option Doc)) :
    loadChanges (some (some (Json.arr elems))) = LoadOutcome.typeFailure
    ∧ (∀ v, loadChanges (some (some (Json.arr elems))) ≠ LoadOutcome.ok v)
    ∧ mainRun ph (some (some (Json.arr elems))) targets = none := by
  refine ⟨rfl, ?_, rfl⟩
  intro v hv
  nomatch hv

/-- C10 witness: a concrete bare array of plans aborts the run. -/
theorem loadChanges_non_object_aborts_witness :
    loadChanges (some (some (Json.arr [Json.obj [("name", Json.str "VIP")]])))
        = LoadOutcome.typeFailure
    ∧ loadChanges (some (some (Json.arr [Json.obj [("name", Json.str "VIP")]])))
        ≠ LoadOutcome.ok (Json.arr [Json.obj [("name", Json.str "VIP")]]) :=
  ⟨(loadChanges_non_object_aborts _ (fun _ => 0) []).1,
   (loadChanges_non_object_aborts _ (fun _ => 0) []).2.1 _⟩

end PlanAppender
